import Mathlib

/-!
Verification development for the cargotecture repository: a shallow
embedding of the manifest-to-model extraction pipeline (src/parse_dockerfile.rs),
the topology validator (src/parse_compose.rs) and the declarative-package
renderer (src/gen_sysml.rs), together with theorems settling the frozen
claims about its specification.

Rust strings are embedded as `List Char` for the character-level parsing
functions and as `String` for the assembled model fields and rendered text.
Machine integers (`u16`, `usize`) are embedded as `Nat`; wherever the source
enforces a range (the `u16` parse) the embedding enforces the same bound
explicitly.
-/

namespace Cargotecture

/-! ### Character-level utilities shared by the embedded parsers

`str::trim` in Rust trims `char::is_whitespace` (Unicode White_Space)
from both ends; we embed that predicate explicitly rather than using
Lean's narrower `Char.isWhitespace`. -/

/-- Embedding of Rust `char::is_whitespace` (the Unicode White_Space set). -/
def isUnicodeWhitespace (c : Char) : Bool :=
  [9, 10, 11, 12, 13, 32, 0x85, 0xA0, 0x1680].contains c.toNat
  || (0x2000 ≤ c.toNat && c.toNat ≤ 0x200A)
  || [0x2028, 0x2029, 0x202F, 0x205F, 0x3000].contains c.toNat

/-- Embedding of Rust `str::trim`: drop Unicode whitespace from both ends. -/
def trimChars (s : List Char) : List Char :=
  ((s.dropWhile isUnicodeWhitespace).reverse.dropWhile isUnicodeWhitespace).reverse

/-- Embedding of Rust `str::split(sep).collect::<Vec<_>>()`: split into the
(always nonempty) list of segments between occurrences of `sep`;
the empty string yields one empty segment, a trailing separator yields a
trailing empty segment, exactly as in Rust. -/
def splitOnChar (sep : Char) : List Char → List (List Char)
  | [] => [[]]
  | c :: rest =>
    match splitOnChar sep rest with
    | [] => [[c]]
    | h :: t => if c = sep then [] :: h :: t else (c :: h) :: t

/-- Break a character list at the first occurrence of `sep`: the part before
it, and (when `sep` occurs) everything after it. -/
def breakAtFirst (sep : Char) : List Char → List Char × Option (List Char)
  | [] => ([], none)
  | c :: rest =>
    if c = sep then ([], some rest)
    else
      let p := breakAtFirst sep rest
      (c :: p.1, p.2)

/-- ASCII decimal digit, the only digits Rust's integer parse accepts. -/
def isAsciiDigit (c : Char) : Bool :=
  48 ≤ c.toNat && c.toNat ≤ 57

/-- Value of a big-endian list of decimal digit characters, as accumulated by
the standard left fold (`acc * 10 + digit`). -/
def digitsVal (s : List Char) : Nat :=
  s.foldl (fun a c => a * 10 + (c.toNat - 48)) 0

/-- Embedding of Rust `str::parse::<u16>()`: an optional leading `+`, then a
nonempty run of ASCII digits whose value fits in 16 bits; anything else
(empty input, a stray sign, a non-digit, overflow) fails.  Checking the
16-bit bound on the value of the whole digit run is equivalent to Rust's
overflow check during accumulation, because the accumulator only grows. -/
def parseU16 (s : List Char) : Option Nat :=
  let s1 := if s.head? = some '+' then s.tail else s
  if s1.isEmpty then none
  else if s1.all isAsciiDigit then
    let n := digitsVal s1
    if n ≤ 65535 then some n else none
  else none

/-! ### Data model of `src/parse_dockerfile.rs` -/

/-- Embedding of `enum Protocol` from src/parse_dockerfile.rs. -/
inductive Protocol where
  | Tcp
  | Udp
deriving DecidableEq, Repr

/-- Embedding of `impl Default for Protocol`: the default protocol is TCP. -/
def Protocol.default : Protocol := Protocol.Tcp

/-- Embedding of `impl Display for Protocol` from src/parse_dockerfile.rs. -/
def Protocol.display : Protocol → String
  | Protocol.Tcp => "TCP"
  | Protocol.Udp => "UDP"

/-- Embedding of `struct ExposedPort` from src/parse_dockerfile.rs.  `port_number` is a
`u16` in the source; it is embedded as a `Nat` and every producer in this
file enforces the 16-bit bound the Rust parse enforces. -/
structure ExposedPort where
  port_number : Nat
  protocol : Protocol
deriving DecidableEq, Repr

/-- Embedding of `struct VolumeMount` from src/parse_dockerfile.rs. -/
structure VolumeMount where
  mount_point : String
deriving DecidableEq, Repr

/-- Embedding of `enum Port` from src/parse_dockerfile.rs. -/
inductive Port where
  | Network : ExposedPort → Port
  | Volume : List VolumeMount → Port
  | None : Port
deriving DecidableEq, Repr

/-- Embedding of `fn parse_exposed_port` from src/parse_dockerfile.rs:
split the argument on every `/`; the first segment, trimmed, is parsed as a
`u16` with parse failure collapsed to `0`; the protocol comes from the second
segment (the text between the first and second `/`), compared lowercased
against `tcp` and `udp`, defaulting to TCP; a port of `0` yields `Port::None`.
Rust `to_lowercase` is embedded as `Char.toLower` per character: the two
agree on whether a string equals `tcp`/`udp`, since only the ASCII uppercase
letters lowercase to those letters. -/
def parse_exposed_port (input : List Char) : Port :=
  let parts := splitOnChar '/' input
  let port : Nat := (parseU16 (trimChars (parts.headD []))).getD 0
  let protocol : Protocol :=
    match parts.get? 1 with
    | some s =>
      if s.map Char.toLower = "tcp".data then Protocol.Tcp
      else if s.map Char.toLower = "udp".data then Protocol.Udp
      else Protocol.default
    | none => Protocol.default
  if port = 0 then Port.None
  else Port.Network ⟨port, protocol⟩

/-! ### Model of `serde_json::from_str::<Vec<String>>`

`parse_json_volume` delegates JSON decoding to the serde_json crate (an
external collaborator whose source is not part of this repository).  The
grammar it accepts for `Vec<String>` is embedded here: optional JSON
whitespace, a `[`-bracketed comma-separated sequence of JSON strings, and
nothing but whitespace after the closing bracket.  JSON strings accept the
standard escapes (quote, reverse solidus, solidus, b, f, n, r, t, and
`u`-hex with surrogate pairs) and reject unescaped control characters. -/

/-- JSON whitespace: space, tab, line feed, carriage return. -/
def jsonWs (c : Char) : Bool :=
  c = ' ' || c = '\t' || c = '\n' || c = '\r'

/-- Skip JSON whitespace. -/
def skipJsonWs (s : List Char) : List Char :=
  s.dropWhile jsonWs

/-- Value of one hexadecimal digit character, if it is one. -/
def jsonHexDigit (c : Char) : Option Nat :=
  if c.isDigit then some (c.toNat - 48)
  else if 'a' ≤ c && c ≤ 'f' then some (c.toNat - 87)
  else if 'A' ≤ c && c ≤ 'F' then some (c.toNat - 55)
  else none

/-- Value of four hexadecimal digit characters. -/
def jsonHex4 (h1 h2 h3 h4 : Char) : Option Nat := do
  let a ← jsonHexDigit h1
  let b ← jsonHexDigit h2
  let c ← jsonHexDigit h3
  let d ← jsonHexDigit h4
  pure (((a * 16 + b) * 16 + c) * 16 + d)

/-- Parse the body of a JSON string (the input starts right after the opening
quote); yields the decoded content and the input after the closing quote. -/
def parseJsonStringBody : List Char → Option (List Char × List Char)
  | [] => none
  | c :: rest =>
    if c = '"' then some ([], rest)
    else if c = '\\' then
      match rest with
      | [] => none
      | e :: rest2 =>
        if e = '"' || e = '\\' || e = '/' then
          (parseJsonStringBody rest2).map (fun p => (e :: p.1, p.2))
        else if e = 'b' then
          (parseJsonStringBody rest2).map (fun p => (Char.ofNat 8 :: p.1, p.2))
        else if e = 'f' then
          (parseJsonStringBody rest2).map (fun p => (Char.ofNat 12 :: p.1, p.2))
        else if e = 'n' then
          (parseJsonStringBody rest2).map (fun p => ('\n' :: p.1, p.2))
        else if e = 'r' then
          (parseJsonStringBody rest2).map (fun p => ('\r' :: p.1, p.2))
        else if e = 't' then
          (parseJsonStringBody rest2).map (fun p => ('\t' :: p.1, p.2))
        else if e = 'u' then
          match rest2 with
          | h1 :: h2 :: h3 :: h4 :: rest3 =>
            match jsonHex4 h1 h2 h3 h4 with
            | none => none
            | some v =>
              if 0xD800 ≤ v && v ≤ 0xDBFF then
                match rest3 with
                | '\\' :: 'u' :: g1 :: g2 :: g3 :: g4 :: rest4 =>
                  match jsonHex4 g1 g2 g3 g4 with
                  | none => none
                  | some w =>
                    if 0xDC00 ≤ w && w ≤ 0xDFFF then
                      (parseJsonStringBody rest4).map (fun p =>
                        (Char.ofNat (0x10000 + (v - 0xD800) * 0x400 + (w - 0xDC00)) :: p.1, p.2))
                    else none
                | _ => none
              else if 0xDC00 ≤ v && v ≤ 0xDFFF then none
              else (parseJsonStringBody rest3).map (fun p => (Char.ofNat v :: p.1, p.2))
          | _ => none
        else none
    else if c.toNat < 0x20 then none
    else (parseJsonStringBody rest).map (fun p => (c :: p.1, p.2))

/-- Parse one quoted JSON string token. -/
def parseJsonStringToken (s : List Char) : Option (List Char × List Char) :=
  match s with
  | '"' :: rest => parseJsonStringBody rest
  | _ => none

/-- Parse the elements of a nonempty JSON array of strings, positioned right
after the `[` (or after a `,`); consumes through the closing `]`.  Each
iteration consumes at least the two quote characters of one string token, so
the fuel `input length + 1` never runs out before a parse error would. -/
def parseJsonArrayElems (fuel : Nat) (s : List Char) :
    Option (List (List Char) × List Char) :=
  match fuel with
  | 0 => none
  | fuel + 1 =>
    match parseJsonStringToken (skipJsonWs s) with
    | none => none
    | some (str, rest) =>
      match skipJsonWs rest with
      | ',' :: rest2 => (parseJsonArrayElems fuel rest2).map (fun p => (str :: p.1, p.2))
      | ']' :: rest2 => some ([str], rest2)
      | _ => none

/-- Model of `serde_json::from_str::<Vec<String>>` (external crate): decode a
complete JSON array of strings, failing on anything else and on trailing
non-whitespace input. -/
def serde_json_vec_string (s : List Char) : Option (List String) :=
  match skipJsonWs s with
  | '[' :: rest =>
    match skipJsonWs rest with
    | ']' :: rest2 => if (skipJsonWs rest2).isEmpty then some [] else none
    | _ =>
      match parseJsonArrayElems (rest.length + 1) rest with
      | some (strs, rest3) =>
        if (skipJsonWs rest3).isEmpty then some (strs.map (fun l => ⟨l⟩)) else none
      | none => none
  | _ => none

/-! ### Model of `escape_string::split` -/

/-- Translate an escaped character of the escape-string crate. -/
def unescapeChar (c : Char) : Char :=
  if c = 'n' then '\n'
  else if c = 't' then '\t'
  else c

/-- Read one whitespace-delimited word, honouring backslash escapes; yields
the decoded word and the rest of the input; fails on a trailing lone
backslash. -/
def readEscapedWord : List Char → Option (List Char × List Char)
  | [] => some ([], [])
  | c :: rest =>
    if isUnicodeWhitespace c then some ([], c :: rest)
    else if c = '\\' then
      match rest with
      | [] => none
      | e :: rest2 => (readEscapedWord rest2).map (fun p => (unescapeChar e :: p.1, p.2))
    else (readEscapedWord rest).map (fun p => (c :: p.1, p.2))

/-- Modelled from the spec: `escape_string::split` (external crate, source not
in this repository), the shell-word splitting used for `VOLUME` arguments —
"handles quoting/escaping so a single directive can declare multiple
space-separated absolute paths".  Words are separated by runs of unescaped
whitespace; a backslash escapes the following character into the current
word; an unfinished escape sequence makes the whole split fail.  Every word
read consumes at least one character, so the fuel `input length + 1` never
runs out. -/
def escapeStringSplit (fuel : Nat) (s : List Char) : Option (List (List Char)) :=
  match fuel with
  | 0 => none
  | fuel + 1 =>
    match s.dropWhile isUnicodeWhitespace with
    | [] => some []
    | c :: rest =>
      match readEscapedWord (c :: rest) with
      | none => none
      | some (w, rest2) => (escapeStringSplit fuel rest2).map (fun ws => w :: ws)

/-- Entry point of the `escape_string::split` model. -/
def escape_string_split (s : List Char) : Option (List (List Char)) :=
  escapeStringSplit (s.length + 1) s

/-! ### `VOLUME` argument parsing from src/parse_dockerfile.rs -/

/-- Embedding of `fn parse_json_volume` from src/parse_dockerfile.rs: decode the argument
as a JSON array of strings, one `VolumeMount` per element in array order;
any decode error yields `Port::None`. -/
def parse_json_volume (json_str : List Char) : Port :=
  match serde_json_vec_string json_str with
  | some paths => Port.Volume (paths.map (fun mount_point => ⟨mount_point⟩))
  | none => Port.None

/-- Embedding of `fn parse_string_volume` from src/parse_dockerfile.rs: shell-word split
the argument, one `VolumeMount` per word; a failed split yields `Port::None`. -/
def parse_string_volume (input_str : List Char) : Port :=
  match escape_string_split input_str with
  | some unix_paths => Port.Volume (unix_paths.map (fun w => ⟨⟨w⟩⟩))
  | none => Port.None

/-- Embedding of `fn parse_volume` from src/parse_dockerfile.rs: dispatch on the first
character of the trimmed argument — `[` routes to the JSON decoder, `/` to
the shell-word splitter, anything else (including an empty or all-whitespace
argument) yields `Port::None`. -/
def parse_volume (input : List Char) : Port :=
  match (trimChars input).head? with
  | some c =>
    if c = '[' then parse_json_volume input
    else if c = '/' then parse_string_volume input
    else Port.None
  | none => Port.None

/-! ### The instruction walk of src/parse_dockerfile.rs -/

/-- The instruction nodes produced by the external dockerfile tokenizer, as
far as `extract_dockerblock` inspects them: `From` carries the image
reference, `Label` its key/value pairs, `Misc` the directive keyword and its
argument text, and `Other` stands for every other instruction kind the
walk ignores (`Arg`, `Run`, `Env`, ...).  Each node also carries `src`, the
raw source text of the instruction — the slice
`dockerfile.content[span.start..span.end]` the source takes through the
node's span. -/
inductive Instruction where
  | From (image : String) (src : String)
  | Label (labels : List (String × String)) (src : String)
  | Misc (instruction : String) (arguments : String) (src : String)
  | Other (src : String)
deriving DecidableEq, Repr

/-- The raw source text of an instruction. -/
def Instruction.src : Instruction → String
  | Instruction.From _ s => s
  | Instruction.Label _ s => s
  | Instruction.Misc _ _ s => s
  | Instruction.Other s => s

/-- One build stage, as produced by `Dockerfile::iter_stages` of the external
tokenizer: an optional stage name and the stage's instructions in source
order. -/
structure Stage where
  name : Option String
  instructions : List Instruction
deriving DecidableEq, Repr

/-- A parsed dockerfile: its build stages in document order. -/
structure Dockerfile where
  stages : List Stage
deriving DecidableEq, Repr

/-- Embedding of `struct ParsedContainer` from src/parse_dockerfile.rs.  The `labels`
`HashMap` is embedded as an association list carrying the map's iteration
order; `containerfile` is the instruction trace. -/
structure ParsedContainer where
  name : String
  base_image : String
  labels : List (String × String)
  exposed_ports : List ExposedPort
  volumes : List VolumeMount
  containerfile : List String
deriving DecidableEq, Repr

/-- Embedding of `HashMap::insert` on the label map, on the association-list embedding:
overwrite the binding in place when the key is present, append it otherwise
(later duplicate keys overwrite earlier values). -/
def insertLabel (labels : List (String × String)) (k v : String) :
    List (String × String) :=
  if labels.any (fun p => p.1 == k) then
    labels.map (fun p => if p.1 == k then (k, v) else p)
  else labels ++ [(k, v)]

/-- Embedding of `fn parse_misc_instruction` from src/parse_dockerfile.rs, over the
keyword and argument text of a `Misc` instruction node. -/
def parse_misc_instruction (instruction arguments : String) : Port :=
  match instruction with
  | "EXPOSE" => parse_exposed_port arguments.data
  | "VOLUME" => parse_volume arguments.data
  | _ => Port.None

/-- The body of the instruction loop of `fn extract_dockerblock`: push the
instruction's raw source text onto the trace unconditionally, then update the
field the instruction kind contributes to, if any. -/
def processInstruction (acc : ParsedContainer) (ins : Instruction) :
    ParsedContainer :=
  let acc := { acc with containerfile := acc.containerfile ++ [ins.src] }
  match ins with
  | Instruction.From image _ => { acc with base_image := image }
  | Instruction.Label ls _ =>
    { acc with labels := ls.foldl (fun m p => insertLabel m p.1 p.2) acc.labels }
  | Instruction.Misc instruction arguments _ =>
    match parse_misc_instruction instruction arguments with
    | Port.Network exposed => { acc with exposed_ports := acc.exposed_ports ++ [exposed] }
    | Port.Volume vol => { acc with volumes := acc.volumes ++ vol }
    | Port.None => acc
  | Instruction.Other _ => acc

/-- The body of the stage loop of `fn extract_dockerblock`: overwrite `name`
with the stage's name (empty when the stage is unnamed), then walk the
stage's instructions. -/
def processStage (acc : ParsedContainer) (stage : Stage) : ParsedContainer :=
  let acc := { acc with name := stage.name.getD "" }
  stage.instructions.foldl processInstruction acc

/-- Embedding of `fn extract_dockerblock` from src/parse_dockerfile.rs: walk all stages in
document order, accumulating the container model from empty initial fields. -/
def extract_dockerblock (df : Dockerfile) : ParsedContainer :=
  df.stages.foldl processStage ⟨"", "", [], [], [], []⟩

/-- Model of `std::path::Path::file_name` (Rust standard library): the final
path component, with trailing separators and `.` components ignored; absent
for an empty path, a root path, or a path ending in `..`. -/
def path_file_name (path : String) : Option String :=
  let comps := (splitOnChar '/' path.data).map (fun l => (⟨l⟩ : String))
  match (comps.filter (fun c => c ≠ "" && c ≠ ".")).getLast? with
  | none => none
  | some c => if c = ".." then none else some c

/-- Embedding of `fn parse_dockerfile` from src/parse_dockerfile.rs, after the external
file read and tokenizer have produced the `Dockerfile` value: extract the
model, and when its `name` is still empty replace it by the source file's
base name.  The `unwrap` on `file_name` is embedded as `Option`:
`none` models the panic on a path without a final component. -/
def parse_dockerfile (path : String) (df : Dockerfile) : Option ParsedContainer :=
  let block := extract_dockerblock df
  if block.name = "" then
    (path_file_name path).map (fun fn => { block with name := fn })
  else some block

/-! ### The declarative-package renderer of src/gen_sysml.rs

Braces that are literal text of the generated notation are written `\x7b`
and `\x7d`, and literal double quotes `\x22`, to keep the embedded strings
free of characters that read as interpolation. -/

/-- Embedding of `static PACKAGE_HEADER` from src/gen_sysml.rs: the fixed schema preamble
prepended to every generated package, transcribed byte for byte. -/
def PACKAGE_HEADER : String :=
  " \x7b\n"
  ++ "    import ScalarValues::*;\n"
  ++ "    \n"
  ++ "    attribute def image;\n"
  ++ "    attribute def label;\n"
  ++ "    attribute def maintainer;\n"
  ++ "    attribute def mountPoint;\n"
  ++ "\n"
  ++ "    // Part Definition: Container\n"
  ++ "    part def Container \x7b\n"
  ++ "        attribute image: String;\n"
  ++ "        attribute label: String[0..*];\n"
  ++ "        attribute maintainer: String[0..*];\n"
  ++ "\n"
  ++ "        port networkPorts: NetworkPort[0..*];\n"
  ++ "        port volumePorts: VolumePort[0..*];\n"
  ++ "    \x7d\n"
  ++ "\n"
  ++ "    part def BaseImage \x7b\n"
  ++ "        attribute imageName: String;\n"
  ++ "    \x7d\n"
  ++ "\n"
  ++ "    // Port Definition: NetworkPort\n"
  ++ "    port def NetworkPort \x7b\n"
  ++ "        enum def Protocol \x7b\n"
  ++ "            enum UDP;\n"
  ++ "            enum TCP;\n"
  ++ "        \x7d\n"
  ++ "\n"
  ++ "        attribute protocol: Protocol;\n"
  ++ "        attribute portNumber: Integer;\n"
  ++ "    \x7d\n"
  ++ "\n"
  ++ "    // Port Definition: VolumePort\n"
  ++ "    port def VolumePort \x7b\n"
  ++ "        attribute mountPoint: String;\n"
  ++ "    \x7d\n"
  ++ "    "

/-- Embedding of `fn sysml_cargotecture_package` from src/gen_sysml.rs: assemble the
declarative package text by sequential string pushes — package line, schema
preamble, base-image part, container part with one label redefinition per
stored label entry (in the label map's iteration order), one network-port
sub-part per exposed endpoint and one volume-port sub-part per mount, each
named by its position in its list. -/
def sysml_cargotecture_package (container : ParsedContainer) : String :=
  let package := "package " ++ container.name ++ "Model"
  let package := package ++ PACKAGE_HEADER
  let package := package ++ ("part " ++ container.name ++ "System \x7b\n")
  let package := package ++ ("        part " ++ container.name ++ "Base: BaseImage \x7b\n")
  let package := package
    ++ ("                attribute imageName redefines imageName = \x22"
        ++ container.base_image ++ "\x22;\n")
  let package := package ++ "            \x7d\n"
  let package := package ++ ("        part " ++ container.name ++ ": Container \x7b\n")
  let package := container.labels.foldl (fun pkg p =>
    pkg ++ ("            attribute " ++ p.1 ++ " redefines label = \x22"
            ++ p.2 ++ "\x22;\n")) package
  let package := container.exposed_ports.enum.foldl (fun pkg p =>
    pkg ++ ("            port port" ++ toString p.1 ++ ": NetworkPort \x7b\n")
        ++ ("                protocol redefines protocol = Protocol::"
            ++ p.2.protocol.display ++ ";\n")
        ++ ("                portNumber redefines portNumber = "
            ++ toString p.2.port_number ++ ";\n")
        ++ "            \x7d\n") package
  let package := container.volumes.enum.foldl (fun pkg p =>
    pkg ++ ("            port volume" ++ toString p.1 ++ ": VolumePort \x7b\n")
        ++ ("                mountPoint redefines mountPoint = \x22"
            ++ p.2.mount_point ++ "\x22;\n")
        ++ "            \x7d\n") package
  let package := package ++ "        \x7d\n"
  let package := package ++ "    \x7d\n"
  let package := package ++ "\x7d\n"
  package

/-! ### Data model of `src/parse_compose.rs`

The `HashMap`-typed fields (`services`, `networks`, label/environment maps,
a `Map`-shaped `depends_on`) are embedded as association lists carrying the
map's iteration order; IP and socket addresses are embedded as their textual
form, which is all the validator ever inspects (it never does). -/

/-- Embedding of `struct Logging` from src/parse_compose.rs. -/
structure Logging where
  driver : String
  options : Option (List (String × String))
deriving DecidableEq, Repr

/-- Embedding of `struct Healthcheck` from src/parse_compose.rs. -/
structure Healthcheck where
  test : List String
  interval : Option String
  timeout : Option String
  retries : Option Int
  start_period : Option String
deriving DecidableEq, Repr

/-- Embedding of `struct Condition` from src/parse_compose.rs. -/
structure Condition where
  condition : String
deriving DecidableEq, Repr

/-- Embedding of `enum DependsOn` from src/parse_compose.rs: a dependency specification is
either a plain list of service names or a mapping from service name to a
readiness condition. -/
inductive DependsOn where
  | List : List String → DependsOn
  | Map : List (String × Condition) → DependsOn
deriving DecidableEq, Repr

/-- Embedding of `enum IpNetwork` from src/parse_compose.rs, with the parsed addresses
embedded as their textual form. -/
inductive IpNetwork where
  | V4 : String → IpNetwork
  | V6 : String → IpNetwork
deriving DecidableEq, Repr

/-- Embedding of `struct SubnetConfig` from src/parse_compose.rs. -/
structure SubnetConfig where
  subnet : IpNetwork
deriving DecidableEq, Repr

/-- Embedding of `struct Ipam` from src/parse_compose.rs. -/
structure Ipam where
  driver : Option String
  config : Option (List SubnetConfig)
deriving DecidableEq, Repr

/-- Embedding of `struct Network` from src/parse_compose.rs. -/
structure Network where
  enable_ipv6 : Option Bool
  driver : Option String
  ipam : Option Ipam
  internal : Option Bool
deriving DecidableEq, Repr

/-- Embedding of `struct Service` from src/parse_compose.rs.  `ports` already holds the
string-normalized port list (the custom coercion runs at deserialization);
`dns` holds socket addresses in textual form. -/
structure Service where
  image : Option String
  container_name : Option String
  command : Option String
  restart : Option String
  env_file : Option String
  logging : Option Logging
  ports : Option (List String)
  networks : Option (List String)
  volumes : Option (List String)
  depends_on : Option DependsOn
  dns : Option (List String)
  hostname : Option String
  environment : Option (List (String × String))
  extra_hosts : Option (List String)
  healthcheck : Option Healthcheck
deriving DecidableEq, Repr

/-- Embedding of `struct Compose` from src/parse_compose.rs. -/
structure Compose where
  version : Option String
  services : List (String × Service)
  networks : Option (List (String × Network))
deriving DecidableEq, Repr

/-- The restart policies `Compose::validate` accepts. -/
def restartAllowed : List String :=
  ["no", "always", "on-failure", "unless-stopped"]

/-- The violation message for an invalid restart value
(`Invalid restart value '…' for service '…'`; `\x27` is the apostrophe). -/
def invalidRestartMsg (restart name : String) : String :=
  "Invalid restart value \x27" ++ restart ++ "\x27 for service \x27" ++ name ++ "\x27"

/-- The violation message for a network reference that does not resolve
(`Referenced network '…' not found for service '…'`). -/
def missingNetworkMsg (network name : String) : String :=
  "Referenced network \x27" ++ network ++ "\x27 not found for service \x27"
  ++ name ++ "\x27"

/-- The violation message for a dependency reference that does not resolve
(`Referenced service '…' in depends_on not found for service '…'`). -/
def missingDependencyMsg (dependency name : String) : String :=
  "Referenced service \x27" ++ dependency
  ++ "\x27 in depends_on not found for service \x27" ++ name ++ "\x27"

/-- The service names a dependency specification references: the list itself,
or the mapping's keys. -/
def depKeys : DependsOn → List String
  | DependsOn.List l => l
  | DependsOn.Map m => m.map (fun p => p.1)

/-- The restart check of `Compose::validate`'s loop body. -/
def checkRestart (name : String) (service : Service) : Except String Unit :=
  match service.restart with
  | some restart =>
    if restartAllowed.contains restart then Except.ok ()
    else Except.error (invalidRestartMsg restart name)
  | none => Except.ok ()

/-- The referenced-network check of `Compose::validate`'s loop body: fail on
the first referenced network name missing from the known network set. -/
def checkNetworks (network_names : List String) (name : String)
    (service : Service) : Except String Unit :=
  match service.networks with
  | some networks =>
    match networks.find? (fun network => !(network_names.contains network)) with
    | some network => Except.error (missingNetworkMsg network name)
    | none => Except.ok ()
  | none => Except.ok ()

/-- The `depends_on` check of `Compose::validate`'s loop body: fail on the
first referenced service name missing from the model's service set. -/
def checkDependsOn (service_names : List String) (name : String)
    (service : Service) : Except String Unit :=
  match service.depends_on with
  | some d =>
    match (depKeys d).find? (fun dep => !(service_names.contains dep)) with
    | some dependency => Except.error (missingDependencyMsg dependency name)
    | none => Except.ok ()
  | none => Except.ok ()

/-- The whole loop body of `Compose::validate` for one service: restart
check, then network check, then dependency check, the first violation
returning early exactly as the source's `return Err(…)` does. -/
def checkService (service_names network_names : List String) (name : String)
    (service : Service) : Except String Unit :=
  match checkRestart name service with
  | Except.error e => Except.error e
  | Except.ok _ =>
    match checkNetworks network_names name service with
    | Except.error e => Except.error e
    | Except.ok _ => checkDependsOn service_names name service

/-- The service names of a model (`self.services.keys()`). -/
def serviceNamesOf (c : Compose) : List String :=
  c.services.map (fun p => p.1)

/-- The known network names of a model
(`self.networks.as_ref().unwrap_or(&HashMap::new()).keys()`): the keys of
the networks mapping, or the empty set when the mapping is absent. -/
def networkNamesOf (c : Compose) : List String :=
  (c.networks.getD []).map (fun p => p.1)

/-- The service loop of `Compose::validate`: return the first violation
encountered, or success after checking every service. -/
def validateLoop (service_names network_names : List String) :
    List (String × Service) → Except String Unit
  | [] => Except.ok ()
  | (name, service) :: rest =>
    match checkService service_names network_names name service with
    | Except.ok _ => validateLoop service_names network_names rest
    | Except.error e => Except.error e

/-- Embedding of `Compose::validate` from src/parse_compose.rs. -/
def Compose.validate (c : Compose) : Except String Unit :=
  validateLoop (serviceNamesOf c) (networkNamesOf c) c.services

/-- Embedding of `fn parse_composefile` from src/parse_compose.rs, after the external YAML
engine has produced its result (embedded as the `Except` argument): run the
validator, report its outcome as a printed message, and return the model
regardless.  The result pairs the returned value with the printed report;
the debug pretty-print of the model (the second println of the source)
carries no decision logic and is not part of the embedding. -/
def parse_composefile (deserialized : Except String Compose) :
    Except String Compose × List String :=
  match deserialized with
  | Except.error e => (Except.error e, [])
  | Except.ok compose =>
    let report :=
      match compose.validate with
      | Except.ok _ => "Validation successful"
      | Except.error err => "Compose validation failed: " ++ err
    (Except.ok compose, [report])

/-! ### Basic lemmas about the character utilities -/

theorem dropWhile_eq_self_of_none {p : Char → Bool} {l : List Char}
    (h : ∀ c ∈ l, p c = false) : l.dropWhile p = l := by
  cases l with
  | nil => rfl
  | cons c rest => simp [List.dropWhile, h c (List.mem_cons_self c rest)]

theorem trimChars_eq_self {s : List Char}
    (h : ∀ c ∈ s, isUnicodeWhitespace c = false) : trimChars s = s := by
  unfold trimChars
  rw [dropWhile_eq_self_of_none h, dropWhile_eq_self_of_none, List.reverse_reverse]
  intro c hc
  exact h c (List.mem_reverse.mp hc)

theorem isAsciiDigit_not_ws {c : Char} (h : isAsciiDigit c = true) :
    isUnicodeWhitespace c = false := by
  simp only [isAsciiDigit, Bool.and_eq_true, decide_eq_true_eq] at h
  simp only [isUnicodeWhitespace, List.contains, Bool.or_eq_false_iff,
    Bool.and_eq_false_iff, List.elem_eq_mem, decide_eq_false_iff_not,
    List.mem_cons, List.not_mem_nil, or_false, not_or]
  omega

theorem isAsciiDigit_ne {c d : Char} (h : isAsciiDigit c = true)
    (hd : isAsciiDigit d = false) : c ≠ d := by
  intro e
  rw [e] at h
  rw [h] at hd
  exact Bool.noConfusion hd

theorem splitOnChar_ne_nil (sep : Char) : ∀ s, splitOnChar sep s ≠ []
  | [] => by simp [splitOnChar]
  | c :: rest => by
    unfold splitOnChar
    cases h : splitOnChar sep rest with
    | nil => simp
    | cons hd tl => by_cases hc : c = sep <;> simp [hc]

theorem splitOnChar_not_mem {sep : Char} : ∀ {s : List Char}, sep ∉ s →
    splitOnChar sep s = [s]
  | [], _ => rfl
  | c :: rest, h => by
    have hc : ¬(c = sep) := fun e => h (e ▸ List.mem_cons_self c rest)
    have hrest : sep ∉ rest := fun m => h (List.mem_cons_of_mem _ m)
    simp only [splitOnChar]
    rw [splitOnChar_not_mem hrest]
    simp [hc]

theorem splitOnChar_append {sep : Char} {a : List Char} (b : List Char)
    (h : sep ∉ a) : splitOnChar sep (a ++ sep :: b) = a :: splitOnChar sep b := by
  induction a with
  | nil =>
    simp only [List.nil_append, splitOnChar]
    cases hb : splitOnChar sep b with
    | nil => exact absurd hb (splitOnChar_ne_nil sep b)
    | cons hd tl => simp
  | cons c rest ih =>
    have hc : ¬(c = sep) := fun e => h (e ▸ List.mem_cons_self c rest)
    have hrest : sep ∉ rest := fun m => h (List.mem_cons_of_mem _ m)
    simp only [List.cons_append, splitOnChar, List.append_eq]
    rw [ih hrest]
    simp [hc]

theorem parseU16_digits {ds : List Char} (h1 : ds ≠ [])
    (h2 : ∀ c ∈ ds, isAsciiDigit c = true) (h3 : digitsVal ds ≤ 65535) :
    parseU16 ds = some (digitsVal ds) := by
  unfold parseU16
  have hplus : (if ds.head? = some '+' then ds.tail else ds) = ds := by
    cases ds with
    | nil => rfl
    | cons c rest =>
      have : c ≠ '+' :=
        isAsciiDigit_ne (h2 c (List.mem_cons_self c rest)) (by decide)
      simp [this]
  rw [hplus]
  rw [if_neg (by simpa [List.isEmpty_iff] using h1)]
  rw [if_pos (by simpa [List.all_eq_true] using h2), if_pos h3]

theorem parseU16_of_space {s : List Char} (h : ' ' ∈ s) : parseU16 s = none := by
  unfold parseU16
  by_cases hp : s.head? = some '+'
  · have hmem : ' ' ∈ s.tail := by
      cases s with
      | nil => cases h
      | cons c rest =>
        simp only [List.head?_cons, Option.some_inj] at hp
        cases List.mem_cons.mp h with
        | inl e => exact absurd (hp ▸ e.symm) (by decide)
        | inr m => exact m
    rw [if_pos hp]
    rw [if_neg (by simp [List.isEmpty_iff]; exact List.ne_nil_of_mem hmem)]
    rw [if_neg]
    simp only [List.all_eq_true, not_forall]
    exact ⟨' ', hmem, by decide⟩
  · rw [if_neg hp]
    rw [if_neg (by simp [List.isEmpty_iff]; exact List.ne_nil_of_mem h)]
    rw [if_neg]
    simp only [List.all_eq_true, not_forall]
    exact ⟨' ', h, by decide⟩

theorem splitOnChar_eq_break (sep : Char) : ∀ s : List Char,
    splitOnChar sep s =
      match breakAtFirst sep s with
      | (l, none) => [l]
      | (l, some r) => l :: splitOnChar sep r
  | [] => rfl
  | c :: rest => by
    by_cases hc : c = sep
    · subst hc
      simp only [breakAtFirst, if_pos rfl, splitOnChar]
      cases hb : splitOnChar c rest with
      | nil => exact absurd hb (splitOnChar_ne_nil _ _)
      | cons hd tl => simp [hb]
    · simp only [splitOnChar, breakAtFirst, if_neg hc]
      have ih := splitOnChar_eq_break sep rest
      cases hbr : breakAtFirst sep rest with
      | mk l r =>
        rw [hbr] at ih
        cases r with
        | none =>
          simp only at ih
          rw [ih]
        | some rr =>
          simp only at ih
          rw [ih]

theorem splitOnChar_headD (sep : Char) (s : List Char) :
    (splitOnChar sep s).headD [] = (breakAtFirst sep s).1 := by
  rw [splitOnChar_eq_break]
  cases hbr : breakAtFirst sep s with
  | mk l r => cases r <;> simp

theorem splitOnChar_get_one (sep : Char) (s : List Char) :
    (splitOnChar sep s).get? 1 =
      match (breakAtFirst sep s).2 with
      | none => none
      | some r => some ((breakAtFirst sep r).1) := by
  rw [splitOnChar_eq_break]
  cases hbr : breakAtFirst sep s with
  | mk l r =>
    cases r with
    | none => simp
    | some rr =>
      simp only
      rw [splitOnChar_eq_break]
      cases hbr2 : breakAtFirst sep rr with
      | mk l2 r2 => cases r2 <;> simp

/-! ### Lemmas about the instruction walk -/

theorem processInstruction_trace (acc : ParsedContainer) (i : Instruction) :
    (processInstruction acc i).containerfile = acc.containerfile ++ [i.src] := by
  cases i with
  | From image s => rfl
  | Label ls s => rfl
  | Other s => rfl
  | Misc instr args s =>
    unfold processInstruction
    dsimp only
    cases h : parse_misc_instruction instr args <;> rfl

theorem foldl_processInstruction_trace (l : List Instruction) :
    ∀ acc : ParsedContainer,
      (l.foldl processInstruction acc).containerfile
        = acc.containerfile ++ l.map Instruction.src := by
  induction l with
  | nil => intro acc; simp
  | cons i rest ih =>
    intro acc
    rw [List.foldl_cons, ih, processInstruction_trace]
    simp

theorem processStage_trace (acc : ParsedContainer) (st : Stage) :
    (processStage acc st).containerfile
      = acc.containerfile ++ st.instructions.map Instruction.src := by
  unfold processStage
  rw [foldl_processInstruction_trace]

theorem foldl_processStage_trace (stages : List Stage) :
    ∀ acc : ParsedContainer,
      (stages.foldl processStage acc).containerfile
        = acc.containerfile
          ++ (stages.map (fun st => st.instructions.map Instruction.src)).flatten := by
  induction stages with
  | nil => intro acc; simp
  | cons st rest ih =>
    intro acc
    rw [List.foldl_cons, ih, processStage_trace]
    simp

/-- The `EXPOSE` parser yields nothing when the text before the first `/`
still contains a space after trimming: the whole segment must parse as one
unsigned integer, and a segment with an interior space never does. -/
theorem parse_exposed_port_of_space {args : List Char}
    (h : ' ' ∈ trimChars ((splitOnChar '/' args).headD [])) :
    parse_exposed_port args = Port.None := by
  have hp := parseU16_of_space h
  rw [List.headD_eq_head?_getD] at hp
  simp [parse_exposed_port, hp]

/-- C3: the extraction walk appends exactly one entry to the instruction
trace per instruction encountered, in source order, unconditionally — the
trace of the extracted model is the concatenation, stage by stage, of the
raw source text of every instruction, whatever each instruction contributed
elsewhere. -/
theorem instruction_trace_complete (df : Dockerfile) :
    (extract_dockerblock df).containerfile
      = (df.stages.map (fun st => st.instructions.map Instruction.src)).flatten := by
  unfold extract_dockerblock
  rw [foldl_processStage_trace]
  rfl

/-- C9: a single instruction appends at most one exposed endpoint; an
`EXPOSE`-class instruction whose pre-slash text still contains a space after
trimming (such as a directive listing several space-separated ports)
contributes no endpoint at all; in particular `EXPOSE 8080 9090` parses to
nothing. -/
theorem expose_contributes_at_most_one :
    (∀ (acc : ParsedContainer) (ins : Instruction),
      (processInstruction acc ins).exposed_ports.length
        ≤ acc.exposed_ports.length + 1)
    ∧ (∀ (acc : ParsedContainer) (args srctext : String),
        ' ' ∈ trimChars ((splitOnChar '/' args.data).headD []) →
        (processInstruction acc (Instruction.Misc "EXPOSE" args srctext)).exposed_ports
          = acc.exposed_ports)
    ∧ parse_exposed_port ("8080 9090" : String).data = Port.None := by
  refine ⟨?_, ?_, by decide⟩
  · intro acc ins
    cases ins with
    | From image s => exact Nat.le_succ _
    | Label ls s => exact Nat.le_succ _
    | Other s => exact Nat.le_succ _
    | Misc instr args s =>
      unfold processInstruction
      dsimp only
      cases h : parse_misc_instruction instr args with
      | Network e => simp
      | Volume v => exact Nat.le_succ _
      | None => exact Nat.le_succ _
  · intro acc args srctext h
    have hpm : parse_misc_instruction "EXPOSE" args = Port.None := by
      rw [show parse_misc_instruction "EXPOSE" args = parse_exposed_port args.data
        from rfl]
      exact parse_exposed_port_of_space h
    simp [processInstruction, hpm]

/-- Witness for C9: the directive argument `8080 9090` has a space in its
pre-slash text, and the corresponding `EXPOSE` instruction leaves the
endpoint list untouched. -/
theorem expose_contributes_at_most_one_witness :
    ' ' ∈ trimChars ((splitOnChar '/' ("8080 9090" : String).data).headD [])
    ∧ (processInstruction ⟨"", "", [], [], [], []⟩
        (Instruction.Misc "EXPOSE" "8080 9090" "EXPOSE 8080 9090")).exposed_ports = [] :=
  ⟨by decide, expose_contributes_at_most_one.2.1 ⟨"", "", [], [], [], []⟩
    "8080 9090" "EXPOSE 8080 9090" (by decide)⟩

/-! ### Claims C4 and C5: the endpoint value extractor -/

theorem splitOnChar_head? (sep : Char) (s : List Char) :
    (splitOnChar sep s).head? = some ((breakAtFirst sep s).1) := by
  rw [splitOnChar_eq_break]
  cases hbr : breakAtFirst sep s with
  | mk l r => cases r <;> simp

/-- The behaviour claim C4 ascribes to `parseExposedEndpoint`, transcribed
from the claim's words: split at the FIRST `/` only, so that the protocol
text is EVERYTHING after that slash, matched lowercased against `tcp` and
`udp` with anything else (including absence) defaulting to TCP. -/
def claimedParseExposedEndpoint (input : List Char) : Port :=
  let p := breakAtFirst '/' input
  let port : Nat := (parseU16 (trimChars p.1)).getD 0
  let protocol : Protocol :=
    match p.2 with
    | some r =>
      if r.map Char.toLower = "tcp".data then Protocol.Tcp
      else if r.map Char.toLower = "udp".data then Protocol.Udp
      else Protocol.default
    | none => Protocol.default
  if port = 0 then Port.None
  else Port.Network ⟨port, protocol⟩

/-- The amended description of `parseExposedEndpoint`: as claim C4, except
that the protocol text is the segment strictly BETWEEN the first and second
`/` (the source splits on every slash and reads `parts[1]`). -/
def amendedParseExposedEndpoint (input : List Char) : Port :=
  let p := breakAtFirst '/' input
  let port : Nat := (parseU16 (trimChars p.1)).getD 0
  let protocol : Protocol :=
    match p.2 with
    | some r =>
      let tok := (breakAtFirst '/' r).1
      if tok.map Char.toLower = "tcp".data then Protocol.Tcp
      else if tok.map Char.toLower = "udp".data then Protocol.Udp
      else Protocol.default
    | none => Protocol.default
  if port = 0 then Port.None
  else Port.Network ⟨port, protocol⟩

/-- Counterexample to C4 as stated: on `8080/udp/x` the code yields protocol
UDP, because it matches only the text between the first and second slash,
while the claim's everything-after-the-first-slash reading makes the
protocol text `udp/x`, which would default to TCP. -/
theorem parse_exposed_port_first_slash_counterexample :
    parse_exposed_port ("8080/udp/x" : String).data
        = Port.Network ⟨8080, Protocol.Udp⟩
    ∧ claimedParseExposedEndpoint ("8080/udp/x" : String).data
        = Port.Network ⟨8080, Protocol.Tcp⟩
    ∧ parse_exposed_port ("8080/udp/x" : String).data
        ≠ claimedParseExposedEndpoint ("8080/udp/x" : String).data :=
  ⟨by decide, by decide, by decide⟩

/-- Running `parse_exposed_port` on an input of the shape `ds/t` with slash-free
`ds` and `t`: the port comes from `ds` and the protocol token is `t`. -/
theorem parse_exposed_port_split (ds t : List Char) (hds : '/' ∉ ds)
    (ht : '/' ∉ t) :
    parse_exposed_port (ds ++ '/' :: t) =
      (let port := (parseU16 (trimChars ds)).getD 0
       let protocol :=
         if t.map Char.toLower = "tcp".data then Protocol.Tcp
         else if t.map Char.toLower = "udp".data then Protocol.Udp
         else Protocol.default
       if port = 0 then Port.None else Port.Network ⟨port, protocol⟩) := by
  have hs : splitOnChar '/' (ds ++ '/' :: t) = [ds, t] := by
    rw [splitOnChar_append t hds, splitOnChar_not_mem ht]
  unfold parse_exposed_port
  rw [hs]
  rfl

/-- C4 (amended): for every input, `parseExposedEndpoint` behaves as the
amended description — left segment before the first `/` parsed as an
unsigned integer, protocol token the segment strictly between the first and
second `/` (absent or unrecognized tokens defaulting to TCP); in particular
`8080/bogus` yields port 8080 with protocol TCP. -/
theorem parse_exposed_port_segment_semantics :
    (∀ input : List Char,
      parse_exposed_port input = amendedParseExposedEndpoint input)
    ∧ parse_exposed_port ("8080/bogus" : String).data
        = Port.Network ⟨8080, Protocol.Tcp⟩ := by
  refine ⟨?_, by decide⟩
  intro input
  unfold parse_exposed_port amendedParseExposedEndpoint
  dsimp only
  rw [List.headD_eq_head?_getD, splitOnChar_head?, splitOnChar_get_one]
  cases h2 : (breakAtFirst '/' input).2 with
  | none => rfl
  | some r => rfl

/-- C5: for every port number `n` with `1 ≤ n ≤ 65535`, written as any
nonempty ASCII-digit numeral `ds` with value `n`, and protocol token `t`
equal to `tcp` or `udp` in any letter case, `parseExposedEndpoint` on
`<ds>/<t>` returns exactly port `n` with the matching protocol; and `0/tcp`
and `invalid/tcp` both return `Port::None`. -/
theorem parse_exposed_port_valid_ranges :
    (∀ (ds t : List Char) (n : Nat),
      ds ≠ [] → (∀ c ∈ ds, isAsciiDigit c = true) →
      digitsVal ds = n → 1 ≤ n → n ≤ 65535 →
      (t.map Char.toLower = "tcp".data →
        parse_exposed_port (ds ++ '/' :: t) = Port.Network ⟨n, Protocol.Tcp⟩)
      ∧ (t.map Char.toLower = "udp".data →
        parse_exposed_port (ds ++ '/' :: t) = Port.Network ⟨n, Protocol.Udp⟩))
    ∧ parse_exposed_port ("0/tcp" : String).data = Port.None
    ∧ parse_exposed_port ("invalid/tcp" : String).data = Port.None := by
  refine ⟨?_, by decide, by decide⟩
  intro ds t n h1 h2 hn hlo hhi
  have hds : '/' ∉ ds := fun m => absurd (h2 '/' m) (by decide)
  have htrim : trimChars ds = ds :=
    trimChars_eq_self (fun c hc => isAsciiDigit_not_ws (h2 c hc))
  have hparse : parseU16 (trimChars ds) = some n := by
    rw [htrim, parseU16_digits h1 h2 (hn ▸ hhi), hn]
  have hn0 : ¬(n = 0) := by omega
  constructor
  · intro ht
    have htns : '/' ∉ t := by
      intro m
      have hm : Char.toLower '/' ∈ t.map Char.toLower := List.mem_map_of_mem _ m
      rw [ht] at hm
      exact absurd hm (by decide)
    rw [parse_exposed_port_split ds t hds htns, hparse, ht]
    simp [hn0]
  · intro ht
    have htns : '/' ∉ t := by
      intro m
      have hm : Char.toLower '/' ∈ t.map Char.toLower := List.mem_map_of_mem _ m
      rw [ht] at hm
      exact absurd hm (by decide)
    rw [parse_exposed_port_split ds t hds htns, hparse, ht]
    rw [if_neg (show ¬(("udp" : String).data = ("tcp" : String).data) by decide)]
    simp [hn0]

/-- Witness for C5 at `8080/TCP`: the numeral `8080` is a nonempty run of
ASCII digits with value 8080, and the endpoint parses to port 8080 over TCP. -/
theorem parse_exposed_port_valid_ranges_witness :
    ("8080" : String).data ≠ []
    ∧ (∀ c ∈ ("8080" : String).data, isAsciiDigit c = true)
    ∧ parse_exposed_port (("8080" : String).data ++ '/' :: ("TCP" : String).data)
        = Port.Network ⟨8080, Protocol.Tcp⟩ :=
  ⟨by decide, by decide,
    (parse_exposed_port_valid_ranges.1 ("8080" : String).data ("TCP" : String).data
      8080 (by decide) (by decide) (by decide) (by decide) (by decide)).1 (by decide)⟩

/-! ### Claim C6: the mount value extractor -/

/-- The list of mount declarations a `Port` value carries: the caller of the
mount extractor appends exactly these to the model. -/
def mountsOf : Port → List VolumeMount
  | Port.Volume vs => vs
  | _ => []

/-- C6: `parseMountDeclaration` dispatches on the first non-whitespace
character — `[` decodes a JSON array of strings into one declaration per
element in array order with malformed JSON yielding an empty result rather
than a partial one, `/` shell-word-splits the input so `/data /app` yields
two declarations, and any other leading character or empty input yields an
empty result. -/
theorem parse_volume_dispatch :
    (∀ input : List Char,
      ((trimChars input).head? = some '[' →
        parse_volume input = parse_json_volume input
        ∧ mountsOf (parse_volume input)
            = ((serde_json_vec_string input).getD []).map
                (fun mount_point => ⟨mount_point⟩))
      ∧ ((trimChars input).head? = some '/' →
        parse_volume input = parse_string_volume input)
      ∧ (∀ c, (trimChars input).head? = some c → c ≠ '[' → c ≠ '/' →
        parse_volume input = Port.None)
      ∧ ((trimChars input).head? = none → parse_volume input = Port.None))
    ∧ mountsOf (parse_volume ("/data /app" : String).data)
        = [⟨"/data"⟩, ⟨"/app"⟩] := by
  refine ⟨?_, by decide⟩
  intro input
  refine ⟨?_, ?_, ?_, ?_⟩
  · intro h
    have hd : parse_volume input = parse_json_volume input := by
      unfold parse_volume
      rw [h]
      simp
    refine ⟨hd, ?_⟩
    rw [hd]
    unfold parse_json_volume
    cases hj : serde_json_vec_string input with
    | none => rfl
    | some paths => rfl
  · intro h
    unfold parse_volume
    rw [h]
    simp
  · intro c h hb hs
    unfold parse_volume
    rw [h]
    simp [hb, hs]
  · intro h
    unfold parse_volume
    rw [h]

/-- Witness for C6: a concrete JSON-array argument takes the `[` branch and
yields one declaration per element in array order. -/
theorem parse_volume_dispatch_witness :
    (trimChars ("[ \x22/data\x22 , \x22/app\x22 ]" : String).data).head? = some '['
    ∧ mountsOf (parse_volume ("[ \x22/data\x22 , \x22/app\x22 ]" : String).data)
        = [⟨"/data"⟩, ⟨"/app"⟩] :=
  ⟨by decide, by
    rw [((parse_volume_dispatch.1
      ("[ \x22/data\x22 , \x22/app\x22 ]" : String).data).1 (by decide)).2]
    decide⟩

/-! ### Claim C7: the name fallback of `parse_dockerfile` -/

theorem path_file_name_ne_empty {path fn : String}
    (h : path_file_name path = some fn) : fn ≠ "" := by
  unfold path_file_name at h
  dsimp only at h
  cases hl : (((splitOnChar '/' path.data).map (fun l => (⟨l⟩ : String))).filter
      (fun c => c ≠ "" && c ≠ ".")).getLast? with
  | none => rw [hl] at h; cases h
  | some c =>
    rw [hl] at h
    dsimp only at h
    by_cases hc : c = ".."
    · rw [if_pos hc] at h; cases h
    · rw [if_neg hc] at h
      have hm := List.mem_of_getLast?_eq_some hl
      have hp := (List.mem_filter.mp hm).2
      simp only [Bool.and_eq_true, decide_eq_true_eq] at hp
      cases h
      exact hp.1

/-- C7: every model `parse_dockerfile` returns has a non-empty name — when
the extraction walk leaves the name empty (the last stage is unnamed) the
name becomes the source file's base name (directory-stripped, extension
retained) and nothing else changes, and otherwise the extracted model is
returned unchanged. -/
theorem parse_dockerfile_name_fallback :
    ∀ (path : String) (df : Dockerfile) (b : ParsedContainer),
      parse_dockerfile path df = some b →
      b.name ≠ ""
      ∧ ((extract_dockerblock df).name = "" →
          path_file_name path = some b.name
          ∧ b = { extract_dockerblock df with name := b.name })
      ∧ ((extract_dockerblock df).name ≠ "" → b = extract_dockerblock df) := by
  intro path df b h
  unfold parse_dockerfile at h
  by_cases hname : (extract_dockerblock df).name = ""
  · rw [if_pos hname] at h
    cases hf : path_file_name path with
    | none => rw [hf] at h; cases h
    | some fn =>
      rw [hf] at h
      have hb : b = { extract_dockerblock df with name := fn } := by
        simpa using h.symm
      subst hb
      exact ⟨path_file_name_ne_empty hf, fun _ => ⟨rfl, rfl⟩,
        fun hne => absurd hname hne⟩
  · rw [if_neg hname] at h
    have hb : b = extract_dockerblock df := by simpa using h.symm
    subst hb
    exact ⟨hname, fun e => absurd e hname, fun _ => rfl⟩

/-- Witness for C7: a manifest whose only stage is unnamed, read from
`sample.dockerfile`, yields a model named `sample.dockerfile`. -/
theorem parse_dockerfile_name_fallback_witness :
    (⟨"sample.dockerfile", "rust:latest", [], [], [],
        ["FROM rust:latest"]⟩ : ParsedContainer).name ≠ ""
    ∧ path_file_name "sample.dockerfile"
        = some (⟨"sample.dockerfile", "rust:latest", [], [], [],
            ["FROM rust:latest"]⟩ : ParsedContainer).name :=
  ⟨(parse_dockerfile_name_fallback "sample.dockerfile"
      ⟨[⟨none, [Instruction.From "rust:latest" "FROM rust:latest"]⟩]⟩
      ⟨"sample.dockerfile", "rust:latest", [], [], [], ["FROM rust:latest"]⟩
      (by decide)).1,
   ((parse_dockerfile_name_fallback "sample.dockerfile"
      ⟨[⟨none, [Instruction.From "rust:latest" "FROM rust:latest"]⟩]⟩
      ⟨"sample.dockerfile", "rust:latest", [], [], [], ["FROM rust:latest"]⟩
      (by decide)).2.1 (by decide)).1⟩

/-! ### Claim C8: `parse_composefile` returns the model regardless of
validation -/

/-- A service with every optional field absent, used to build the concrete
topology models of the examples below. -/
def emptyService : Service :=
  ⟨none, none, none, none, none, none, none, none, none, none, none, none,
   none, none, none⟩

/-- C8: for every structurally well-formed topology document (a successful
deserialization), `parse_composefile` returns the deserialized model to the
caller; a validation violation only changes the printed report, never the
returned value. -/
theorem parse_composefile_returns_model :
    ∀ compose : Compose,
      (parse_composefile (Except.ok compose)).1 = Except.ok compose
      ∧ (∀ err, compose.validate = Except.error err →
          (parse_composefile (Except.ok compose)).2
            = ["Compose validation failed: " ++ err])
      ∧ (compose.validate = Except.ok () →
          (parse_composefile (Except.ok compose)).2 = ["Validation successful"]) := by
  intro compose
  refine ⟨rfl, ?_, ?_⟩
  · intro err h
    simp [parse_composefile, h]
  · intro h
    simp [parse_composefile, h]

/-- Witness for C8: a model whose only service references a network while no
networks are declared fails validation, and `parse_composefile` still
returns it. -/
theorem parse_composefile_returns_model_witness :
    (parse_composefile (Except.ok
        ⟨none, [("a", { emptyService with networks := some ["n1"] })], none⟩)).1
      = Except.ok
        ⟨none, [("a", { emptyService with networks := some ["n1"] })], none⟩
    ∧ (parse_composefile (Except.ok
        ⟨none, [("a", { emptyService with networks := some ["n1"] })], none⟩)).2
      = ["Compose validation failed: " ++ missingNetworkMsg "n1" "a"] :=
  ⟨(parse_composefile_returns_model
      ⟨none, [("a", { emptyService with networks := some ["n1"] })], none⟩).1,
   (parse_composefile_returns_model
      ⟨none, [("a", { emptyService with networks := some ["n1"] })], none⟩).2.1
      (missingNetworkMsg "n1" "a") rfl⟩

/-! ### Claims C2 and C10: the topology validator

The three per-service checks are characterized against declarative
propositions, and the loop against their conjunction over all services. -/

/-- The service's restart value, when present, is one of the allowed set. -/
def RestartOkP (s : Service) : Prop :=
  ∀ r, s.restart = some r → r ∈ restartAllowed

/-- Every network name the service references exists in the known set. -/
def NetworksOkP (network_names : List String) (s : Service) : Prop :=
  ∀ ns, s.networks = some ns → ∀ n ∈ ns, n ∈ network_names

/-- Every service name the dependency specification references exists. -/
def DependsOkP (service_names : List String) (s : Service) : Prop :=
  ∀ d, s.depends_on = some d → ∀ dep ∈ depKeys d, dep ∈ service_names

theorem checkRestart_ok_iff (name : String) (s : Service) :
    checkRestart name s = Except.ok () ↔ RestartOkP s := by
  unfold checkRestart RestartOkP
  cases hr : s.restart with
  | none => simp
  | some r =>
    by_cases hm : r ∈ restartAllowed
    · simp [List.contains, hm]
    · simp [List.contains, hm]

theorem checkNetworks_ok_iff (nn : List String) (name : String) (s : Service) :
    checkNetworks nn name s = Except.ok () ↔ NetworksOkP nn s := by
  unfold checkNetworks NetworksOkP
  cases hn : s.networks with
  | none => simp
  | some nets =>
    dsimp only
    cases hf : nets.find? (fun network => !(nn.contains network)) with
    | some net =>
      have hp := List.find?_some hf
      have hmem := List.mem_of_find?_eq_some hf
      simp only [Bool.not_eq_eq_eq_not, Bool.not_true, List.contains,
        List.elem_eq_mem, decide_eq_false_iff_not] at hp
      dsimp only
      constructor
      · intro habs; cases habs
      · intro hP
        exact ((hp (hP nets rfl net hmem)).elim)
    | none =>
      have hall := List.find?_eq_none.mp hf
      dsimp only
      constructor
      · intro _ ns hns n hn'
        cases hns
        have := hall n hn'
        simpa [List.contains] using this
      · intro _; rfl

theorem checkDependsOn_ok_iff (sn : List String) (name : String) (s : Service) :
    checkDependsOn sn name s = Except.ok () ↔ DependsOkP sn s := by
  unfold checkDependsOn DependsOkP
  cases hd : s.depends_on with
  | none => simp
  | some d =>
    dsimp only
    cases hf : (depKeys d).find? (fun dep => !(sn.contains dep)) with
    | some dep =>
      have hp := List.find?_some hf
      have hmem := List.mem_of_find?_eq_some hf
      simp only [Bool.not_eq_eq_eq_not, Bool.not_true, List.contains,
        List.elem_eq_mem, decide_eq_false_iff_not] at hp
      dsimp only
      constructor
      · intro habs; cases habs
      · intro hP
        exact ((hp (hP d rfl dep hmem)).elim)
    | none =>
      have hall := List.find?_eq_none.mp hf
      dsimp only
      constructor
      · intro _ d' hd' dep hdep
        cases hd'
        have := hall dep hdep
        simpa [List.contains] using this
      · intro _; rfl

theorem checkService_ok_iff (sn nn : List String) (name : String) (s : Service) :
    checkService sn nn name s = Except.ok () ↔
      checkRestart name s = Except.ok ()
      ∧ checkNetworks nn name s = Except.ok ()
      ∧ checkDependsOn sn name s = Except.ok () := by
  unfold checkService
  cases h1 : checkRestart name s with
  | error e => simp [h1]
  | ok u =>
    cases u
    cases h2 : checkNetworks nn name s with
    | error e => simp [h2]
    | ok u => cases u; simp

theorem validateLoop_ok_iff (sn nn : List String) :
    ∀ l : List (String × Service),
      validateLoop sn nn l = Except.ok () ↔
        ∀ p ∈ l, checkService sn nn p.1 p.2 = Except.ok ()
  | [] => by simp [validateLoop]
  | (name, service) :: rest => by
    unfold validateLoop
    cases hc : checkService sn nn name service with
    | error e =>
      simp only []
      constructor
      · intro habs; cases habs
      · intro hP
        have := hP (name, service) (List.mem_cons_self _ _)
        rw [hc] at this
        cases this
    | ok u =>
      cases u
      rw [validateLoop_ok_iff sn nn rest]
      constructor
      · intro hP p hp
        cases List.mem_cons.mp hp with
        | inl e => cases e; exact hc
        | inr m => exact hP p m
      · intro hP p hp
        exact hP p (List.mem_cons_of_mem _ hp)

/-- The validator succeeds exactly when every service passes all
three checks. -/
theorem validate_ok_iff (c : Compose) :
    c.validate = Except.ok () ↔
      ∀ p ∈ c.services, RestartOkP p.2
        ∧ NetworksOkP (networkNamesOf c) p.2
        ∧ DependsOkP (serviceNamesOf c) p.2 := by
  unfold Compose.validate
  rw [validateLoop_ok_iff]
  constructor
  · intro hP p hp
    have := hP p hp
    rw [checkService_ok_iff] at this
    exact ⟨(checkRestart_ok_iff p.1 p.2).mp this.1,
      (checkNetworks_ok_iff _ p.1 p.2).mp this.2.1,
      (checkDependsOn_ok_iff _ p.1 p.2).mp this.2.2⟩
  · intro hP p hp
    have := hP p hp
    rw [checkService_ok_iff]
    exact ⟨(checkRestart_ok_iff p.1 p.2).mpr this.1,
      (checkNetworks_ok_iff _ p.1 p.2).mpr this.2.1,
      (checkDependsOn_ok_iff _ p.1 p.2).mpr this.2.2⟩

theorem checkRestart_error {name : String} {s : Service} {e : String}
    (h : checkRestart name s = Except.error e) :
    ∃ r, s.restart = some r ∧ r ∉ restartAllowed
      ∧ e = invalidRestartMsg r name := by
  unfold checkRestart at h
  cases hr : s.restart with
  | none => rw [hr] at h; cases h
  | some r =>
    rw [hr] at h
    dsimp only at h
    by_cases hm : restartAllowed.contains r = true
    · rw [if_pos hm] at h; cases h
    · rw [if_neg hm] at h
      cases h
      refine ⟨r, rfl, ?_, rfl⟩
      simpa [List.contains] using hm

theorem checkNetworks_error {nn : List String} {name : String} {s : Service}
    {e : String} (h : checkNetworks nn name s = Except.error e) :
    ∃ net, net ∈ s.networks.getD [] ∧ net ∉ nn
      ∧ e = missingNetworkMsg net name := by
  unfold checkNetworks at h
  cases hn : s.networks with
  | none => rw [hn] at h; cases h
  | some nets =>
    rw [hn] at h
    dsimp only at h
    cases hf : nets.find? (fun network => !(nn.contains network)) with
    | none => rw [hf] at h; cases h
    | some net =>
      rw [hf] at h
      dsimp only at h
      cases h
      have hp := List.find?_some hf
      have hmem := List.mem_of_find?_eq_some hf
      refine ⟨net, by simp [hn, hmem], ?_, rfl⟩
      simpa [List.contains] using hp

theorem checkDependsOn_error {sn : List String} {name : String} {s : Service}
    {e : String} (h : checkDependsOn sn name s = Except.error e) :
    ∃ d dep, s.depends_on = some d ∧ dep ∈ depKeys d ∧ dep ∉ sn
      ∧ e = missingDependencyMsg dep name := by
  unfold checkDependsOn at h
  cases hd : s.depends_on with
  | none => rw [hd] at h; cases h
  | some d =>
    rw [hd] at h
    dsimp only at h
    cases hf : (depKeys d).find? (fun dep => !(sn.contains dep)) with
    | none => rw [hf] at h; cases h
    | some dep =>
      rw [hf] at h
      dsimp only at h
      cases h
      have hp := List.find?_some hf
      have hmem := List.mem_of_find?_eq_some hf
      refine ⟨d, dep, rfl, hmem, ?_, rfl⟩
      simpa [List.contains] using hp

theorem checkService_error {sn nn : List String} {name : String} {s : Service}
    {e : String} (h : checkService sn nn name s = Except.error e) :
    checkRestart name s = Except.error e
    ∨ checkNetworks nn name s = Except.error e
    ∨ checkDependsOn sn name s = Except.error e := by
  unfold checkService at h
  cases h1 : checkRestart name s with
  | error e1 => rw [h1] at h; dsimp only at h; cases h; exact Or.inl rfl
  | ok u =>
    rw [h1] at h
    dsimp only at h
    cases h2 : checkNetworks nn name s with
    | error e2 => rw [h2] at h; dsimp only at h; cases h; exact Or.inr (Or.inl rfl)
    | ok u2 => rw [h2] at h; dsimp only at h; exact Or.inr (Or.inr h)

theorem validateLoop_error (sn nn : List String) :
    ∀ (l : List (String × Service)) (e : String),
      validateLoop sn nn l = Except.error e →
      ∃ p ∈ l, checkService sn nn p.1 p.2 = Except.error e
  | [], e, h => by cases h
  | (name, service) :: rest, e, h => by
    unfold validateLoop at h
    cases hc : checkService sn nn name service with
    | error e1 =>
      rw [hc] at h
      dsimp only at h
      cases h
      exact ⟨(name, service), List.mem_cons_self _ _, hc⟩
    | ok u =>
      rw [hc] at h
      dsimp only at h
      obtain ⟨p, hp, hcp⟩ := validateLoop_error sn nn rest e h
      exact ⟨p, List.mem_cons_of_mem _ hp, hcp⟩

/-- A dependency-violation message carries both the missing dependency and
the referencing service as substrings, by construction. -/
theorem missingDependencyMsg_names_both (dep name : String) :
    dep.data <:+: (missingDependencyMsg dep name).data
    ∧ name.data <:+: (missingDependencyMsg dep name).data := by
  unfold missingDependencyMsg
  constructor
  · exact ⟨("Referenced service \x27" : String).data,
      ("\x27 in depends_on not found for service \x27" ++ name ++ "\x27"
        : String).data, by simp⟩
  · exact ⟨("Referenced service \x27" ++ dep
        ++ "\x27 in depends_on not found for service \x27" : String).data,
      ("\x27" : String).data, by simp⟩

/-- The error string reported by `validate` always describes a real
violation of one of the three checked kinds, for a service actually in the
model; in the dependency case it names both the missing dependency and the
referencing service (they occur in the message as substrings). -/
def IsViolationOf (c : Compose) (e : String) : Prop :=
  ∃ name service, (name, service) ∈ c.services ∧
    ((∃ r, service.restart = some r ∧ r ∉ restartAllowed
        ∧ e = invalidRestartMsg r name)
     ∨ (∃ net, net ∈ service.networks.getD []
        ∧ net ∉ networkNamesOf c ∧ e = missingNetworkMsg net name)
     ∨ (∃ d dep, service.depends_on = some d ∧ dep ∈ depKeys d
        ∧ dep ∉ serviceNamesOf c ∧ e = missingDependencyMsg dep name
        ∧ dep.data <:+: e.data ∧ name.data <:+: e.data))

theorem validate_error (c : Compose) (e : String)
    (h : c.validate = Except.error e) : IsViolationOf c e := by
  unfold Compose.validate at h
  obtain ⟨p, hp, hcp⟩ := validateLoop_error _ _ _ _ h
  rcases checkService_error hcp with h1 | h2 | h3
  · obtain ⟨r, hr, hnm, he⟩ := checkRestart_error h1
    exact ⟨p.1, p.2, hp, Or.inl ⟨r, hr, hnm, he⟩⟩
  · obtain ⟨net, hin, hnm, he⟩ := checkNetworks_error h2
    exact ⟨p.1, p.2, hp, Or.inr (Or.inl ⟨net, hin, hnm, he⟩)⟩
  · obtain ⟨d, dep, hd, hin, hnm, he⟩ := checkDependsOn_error h3
    subst he
    exact ⟨p.1, p.2, hp, Or.inr (Or.inr ⟨d, dep, hd, hin, hnm, rfl,
      (missingDependencyMsg_names_both dep p.1).1,
      (missingDependencyMsg_names_both dep p.1).2⟩)⟩

/-- The topology model refuting C2's reported-violation clause: a single
service carrying both an invalid restart value and a missing dependency.
The restart check runs first inside the loop body, so the reported
violation is the restart one whatever the map iteration order. -/
def composeRestartAndDep : Compose :=
  ⟨none, [("app", { emptyService with
      restart := some "sometimes",
      depends_on := some (DependsOn.List ["ghost"]) })], none⟩

/-- Counterexample to C2 as stated: `composeRestartAndDep` contains a
dependency reference to the missing service `ghost`, yet the violation
`validate` reports is the restart violation, whose message does not contain
`ghost` — so the reported violation does not always name the missing
dependency. -/
theorem validate_reported_violation_counterexample :
    (∃ p ∈ composeRestartAndDep.services, ∃ d, p.2.depends_on = some d
      ∧ "ghost" ∈ depKeys d)
    ∧ "ghost" ∉ serviceNamesOf composeRestartAndDep
    ∧ composeRestartAndDep.validate
        = Except.error (invalidRestartMsg "sometimes" "app")
    ∧ ¬ ("ghost" : String).data <:+: (invalidRestartMsg "sometimes" "app").data :=
  ⟨by decide, by decide, rfl, by decide⟩

/-- C2 (amended): `validate` reports success exactly when every service's
restart value (when present) is in the allowed set, every referenced
network exists in the model's network set, and every dependency-referenced
service name exists in the model's service set; a missing dependency
reference always makes validation fail; and every reported violation
describes a real violation — a reported dependency violation naming both
the missing dependency and the referencing service.  (Amendment forced by
the counterexample: the single reported violation is the first one
encountered, so when an earlier check also fails the reported message may
concern that check instead of the missing dependency.) -/
theorem validate_ok_iff_and_violations :
    ∀ c : Compose,
      (c.validate = Except.ok () ↔
        ∀ p ∈ c.services, RestartOkP p.2
          ∧ NetworksOkP (networkNamesOf c) p.2
          ∧ DependsOkP (serviceNamesOf c) p.2)
      ∧ (∀ name s d dep, (name, s) ∈ c.services → s.depends_on = some d →
          dep ∈ depKeys d → dep ∉ serviceNamesOf c →
          c.validate ≠ Except.ok ())
      ∧ (∀ e, c.validate = Except.error e → IsViolationOf c e) := by
  intro c
  refine ⟨validate_ok_iff c, ?_, fun e h => validate_error c e h⟩
  intro name s d dep hmem hd hdep hnm hok
  have hP := (validate_ok_iff c).mp hok (name, s) hmem
  exact hnm (hP.2.2 d hd dep hdep)

/-- Witness for C2: a model whose only service depends on the missing
service `ghost` reports the dependency violation, and that report describes
the violation and names both parties. -/
theorem validate_ok_iff_and_violations_witness :
    IsViolationOf
      ⟨none, [("a", { emptyService with
          depends_on := some (DependsOn.List ["ghost"]) })], none⟩
      (missingDependencyMsg "ghost" "a") :=
  (validate_ok_iff_and_violations
      ⟨none, [("a", { emptyService with
          depends_on := some (DependsOn.List ["ghost"]) })], none⟩).2.2
    (missingDependencyMsg "ghost" "a") rfl

/-- C10: when the top-level networks mapping is absent, `validate`'s known
network set is empty, so a service declaring at least one network
membership can never validate — its network check reports the first
declared network as not found, and `validate` cannot report success. -/
theorem absent_networks_empty_set :
    ∀ (c : Compose) (name : String) (s : Service) (net : String)
      (rest : List String),
      c.networks = none → (name, s) ∈ c.services →
      s.networks = some (net :: rest) →
      networkNamesOf c = []
      ∧ c.validate ≠ Except.ok ()
      ∧ checkNetworks (networkNamesOf c) name s
          = Except.error (missingNetworkMsg net name) := by
  intro c name s net rest hnet hmem hsn
  have hnn : networkNamesOf c = [] := by simp [networkNamesOf, hnet]
  refine ⟨hnn, ?_, ?_⟩
  · intro hok
    have hP := (validate_ok_iff c).mp hok (name, s) hmem
    have hmem2 := hP.2.1 (net :: rest) hsn net (List.mem_cons_self _ _)
    rw [hnn] at hmem2
    exact absurd hmem2 (List.not_mem_nil _)
  · rw [hnn]
    unfold checkNetworks
    rw [hsn]
    simp [List.find?, List.contains, List.elem]

/-- Witness for C10: a one-service model with no networks mapping and one
declared network membership. -/
theorem absent_networks_empty_set_witness :
    networkNamesOf
        ⟨none, [("a", { emptyService with networks := some ["n1"] })], none⟩ = []
    ∧ Compose.validate
        ⟨none, [("a", { emptyService with networks := some ["n1"] })], none⟩
        ≠ Except.ok ()
    ∧ checkNetworks [] "a" { emptyService with networks := some ["n1"] }
        = Except.error (missingNetworkMsg "n1" "a") :=
  absent_networks_empty_set
    ⟨none, [("a", { emptyService with networks := some ["n1"] })], none⟩
    "a" { emptyService with networks := some ["n1"] } "n1" []
    rfl (List.mem_cons_self _ _) rfl

/-! ### Claim C1: determinism of the declarative-package renderer -/

/-- A model with two labels stored in one order. -/
def labelOrderModelA : ParsedContainer :=
  ⟨"web", "rust:latest", [("a", "1"), ("b", "2")], [], [], []⟩

/-- The same model with the two labels stored in the other order: the same
label mapping (same key-value pairs, unique keys), as a Rust `HashMap`
equality would see it. -/
def labelOrderModelB : ParsedContainer :=
  ⟨"web", "rust:latest", [("b", "2"), ("a", "1")], [], [], []⟩

/-- Counterexample to C1 as stated: two models with the same name, base
reference, label MAPPING (equal as key-value sets, keys unique), endpoint
list and mount list render different text, because the renderer emits label
lines in the map's storage order — and in the source that order is a Rust
`HashMap`'s iteration order, which is not a function of the mapping's
contents. -/
theorem sysml_package_label_order_counterexample :
    labelOrderModelA.name = labelOrderModelB.name
    ∧ labelOrderModelA.base_image = labelOrderModelB.base_image
    ∧ labelOrderModelA.labels.Perm labelOrderModelB.labels
    ∧ (labelOrderModelA.labels.map Prod.fst).Nodup
    ∧ labelOrderModelA.exposed_ports = labelOrderModelB.exposed_ports
    ∧ labelOrderModelA.volumes = labelOrderModelB.volumes
    ∧ sysml_cargotecture_package labelOrderModelA
        ≠ sysml_cargotecture_package labelOrderModelB := by
  refine ⟨rfl, rfl, by decide, by decide, rfl, rfl, ?_⟩
  set_option maxRecDepth 100000 in decide

/-- C1 (amended): the declarative-package renderer is a function of exactly
the model's name, base reference, stored label sequence, endpoint list and
mount list — two models agreeing on those five fields (whatever their
instruction traces) produce identical output text.  (Amendment forced by
the counterexample: agreement must be on the stored label sequence, not
merely on the label mapping, because the renderer follows the storage
order.) -/
theorem sysml_package_deterministic :
    ∀ m1 m2 : ParsedContainer,
      m1.name = m2.name → m1.base_image = m2.base_image →
      m1.labels = m2.labels → m1.exposed_ports = m2.exposed_ports →
      m1.volumes = m2.volumes →
      sysml_cargotecture_package m1 = sysml_cargotecture_package m2 := by
  intro m1 m2 h1 h2 h3 h4 h5
  cases m1 with
  | mk n1 b1 l1 e1 v1 c1 =>
    cases m2 with
    | mk n2 b2 l2 e2 v2 c2 =>
      dsimp only at h1 h2 h3 h4 h5
      subst h1; subst h2; subst h3; subst h4; subst h5
      rfl

/-- Witness for C1 (amended): two models agreeing on the five rendered
fields but with different instruction traces render identically. -/
theorem sysml_package_deterministic_witness :
    sysml_cargotecture_package
        ⟨"web", "rust:latest", [("a", "1")], [], [], ["FROM rust:latest"]⟩
      = sysml_cargotecture_package
        ⟨"web", "rust:latest", [("a", "1")], [], [], []⟩ :=
  sysml_package_deterministic _ _ rfl rfl rfl rfl rfl

end Cargotecture
